import Mathlib

/-!
Verification of the Exiv sandboxed script bridge runtime
(`src/scripts/bridge_runtime.py`) against its specification.

The development is a shallow embedding: each Python function of the
bridge runtime is translated into an executable Lean definition, and the
spec's claims are stated and settled as theorems about those definitions.
-/

namespace ExivBridge

/-! ## JSON values

Wire values of the line protocol (the result of `json.loads` /
the argument of `json.dumps`).  Numbers are modelled as integers; the
runtime never computes with them, it only routes them.
-/

inductive Json where
  | null
  | bool (b : Bool)
  | num (n : Int)
  | str (s : String)
  | arr (elems : List Json)
  | obj (fields : List (String × Json))

mutual

/-- Python `repr()` of a JSON-shaped value (string quoting is modelled
without escape sequences; the runtime only ever interpolates scalar
values into its error messages). -/
def pyRepr : Json → String
  | .null => "None"
  | .bool true => "True"
  | .bool false => "False"
  | .num n => toString n
  | .str s => "\x27" ++ s ++ "\x27"
  | .arr elems => "[" ++ pyReprList elems ++ "]"
  | .obj fields => "\x7b" ++ pyReprFields fields ++ "\x7d"

/-- Comma-separated `repr()` rendering of a list's elements. -/
def pyReprList : List Json → String
  | [] => ""
  | [x] => pyRepr x
  | x :: y :: rest => pyRepr x ++ ", " ++ pyReprList (y :: rest)

/-- Comma-separated `repr()` rendering of a dict's entries. -/
def pyReprFields : List (String × Json) → String
  | [] => ""
  | [(k, v)] => "\x27" ++ k ++ "\x27: " ++ pyRepr v
  | (k, v) :: f :: rest => "\x27" ++ k ++ "\x27: " ++ pyRepr v ++ ", " ++ pyReprFields (f :: rest)

end

/-- Python `str()` of a JSON-shaped value, as used by f-string
interpolation in the runtime's error messages. -/
def pyStr : Json → String
  | .str s => s
  | v => pyRepr v

/-- Python `type(v).__name__` for a JSON-shaped value. -/
def pyTypeName : Json → String
  | .null => "NoneType"
  | .bool _ => "bool"
  | .num _ => "int"
  | .str _ => "str"
  | .arr _ => "list"
  | .obj _ => "dict"

/-- Whether a JSON value is an object (a Python `dict`). -/
def Json.isObj : Json → Bool
  | .obj _ => true
  | _ => false

/-- Whether a parsed JSON value is hashable as a Python object: lists
and dicts are not, so testing one for membership in a set raises
`TypeError`; `None`, booleans, numbers and strings are hashable. -/
def jsonHashable : Json → Bool
  | .arr _ => false
  | .obj _ => false
  | _ => true

/-- `str(e)` of the `TypeError` raised by testing an unhashable value
for set membership: `unhashable type: '<type>'`. -/
def unhashableMsg (v : Json) : String :=
  "unhashable type: \x27" ++ pyTypeName v ++ "\x27"

/-- `dict.get` on the field list of a parsed JSON object.  `json.loads`
builds the dict by inserting keys in textual order, so a duplicated key
keeps its **last** occurrence; the recursion below looks up the rest of
the list first to reproduce that. -/
def jsonGet : List (String × Json) → String → Option Json
  | [], _ => none
  | (k, v) :: rest, key =>
    match jsonGet rest key with
    | some r => some r
    | none => if k = key then some v else none

/-! ## Security Analyzer

`check_script_security` walks the AST of the user script before any of
it is executed.  An AST is modelled as the list of nodes produced by
`ast.walk`, keeping exactly the node shapes the analyzer inspects.
-/

/-- The AST node shapes distinguished by `check_script_security`:
`ast.Import`, `ast.ImportFrom` (whose `module` is `None` for a bare
relative import), `ast.Call` with a bare-`Name` callee, `ast.Call` with
any other callee, and every other node kind. -/
inductive AstNode where
  | importStmt (names : List String) (lineno : Nat)
  | importFrom (module : Option String) (names : List String) (lineno : Nat)
  | callName (funcId : String) (lineno : Nat)
  | callOther (lineno : Nat)
  | other

/-- `FORBIDDEN_MODULES` from `bridge_runtime.main`. -/
def FORBIDDEN_MODULES : List String :=
  ["os", "subprocess", "shutil", "ctypes", "importlib", "pathlib", "socket",
   "pickle", "multiprocessing", "marshal", "signal", "tempfile"]

/-- `FORBIDDEN_BUILTINS` from `bridge_runtime.main`. -/
def FORBIDDEN_BUILTINS : List String :=
  ["__import__", "exec", "eval", "compile"]

/-- `name.split('.')[0]`: the top-level segment of a dotted module path
is everything before the first dot. -/
def topSegment (s : String) : String :=
  ⟨s.data.takeWhile fun c => c ≠ '.'⟩

/-- The violation, if any, that `check_script_security` reports for a
single AST node (the message of the `SecurityError` it raises). -/
def nodeViolation : AstNode → Option String
  | .importStmt names line =>
    names.findSome? fun nm =>
      if FORBIDDEN_MODULES.contains (topSegment nm) then
        some ("Forbidden import \x27" ++ nm ++ "\x27 at line " ++ toString line ++
              ". Module \x27" ++ topSegment nm ++ "\x27 is not allowed in bridge scripts.")
      else none
  | .importFrom module _ line =>
    match module with
    | none => none
    | some m =>
      if FORBIDDEN_MODULES.contains (topSegment m) then
        some ("Forbidden import from \x27" ++ m ++ "\x27 at line " ++ toString line ++
              ". Module \x27" ++ topSegment m ++ "\x27 is not allowed in bridge scripts.")
      else none
  | .callName funcId line =>
    if FORBIDDEN_BUILTINS.contains funcId then
      some ("Forbidden builtin \x27" ++ funcId ++ "\x27 at line " ++ toString line ++
            ". Dynamic code execution is not allowed in bridge scripts.")
    else none
  | .callOther _ => none
  | .other => none

/-- `check_script_security`: walk every node and raise on the first
violation.  `none` means the script passed the gate; `some msg` is the
message of the `SecurityError` raised. -/
def check_script_security (nodes : List AstNode) : Option String :=
  nodes.findSome? nodeViolation

/-- Whether an AST node is an import whose top-level dotted-path segment
is a forbidden module (the condition of claim C1). -/
def hasForbiddenImport : AstNode → Bool
  | .importStmt names _ => names.any fun nm => FORBIDDEN_MODULES.contains (topSegment nm)
  | .importFrom (some m) _ _ => FORBIDDEN_MODULES.contains (topSegment m)
  | _ => false

/-! ## Process startup

`main` up to the dispatch loop: argv check, path-traversal guard,
security gate, module load.  The outcome records what happened before
the loop: whether the process exited (and with what code), whether the
user module's code was executed, what was written to the protocol
stream, and how many requests were read from stdin.
-/

structure StartupOutcome where
  exitCode : Option Nat
  moduleLoaded : Bool
  protocolOut : List Json
  requestsRead : Nat

/-- `main` before the dispatch loop.  `argProvided` is `len(sys.argv) >= 2`;
`pathAllowed` is the realpath containment check; `parsed` is the outcome
of `ast.parse` on the script source (`.error` = `SyntaxError`); `loadOk`
is whether `spec.loader.exec_module` completed without raising.  Every
diagnostic print in this phase goes to stderr, so `protocolOut` stays
empty throughout, and stdin is not read before the loop. -/
def main_startup (argProvided pathAllowed : Bool)
    (parsed : Except String (List AstNode)) (loadOk : Bool) : StartupOutcome :=
  if argProvided = false then
    { exitCode := some 1, moduleLoaded := false, protocolOut := [], requestsRead := 0 }
  else if pathAllowed = false then
    { exitCode := some 1, moduleLoaded := false, protocolOut := [], requestsRead := 0 }
  else
    match parsed with
    | .error _ =>
      { exitCode := some 1, moduleLoaded := false, protocolOut := [], requestsRead := 0 }
    | .ok nodes =>
      match check_script_security nodes with
      | some _ =>
        { exitCode := some 1, moduleLoaded := false, protocolOut := [], requestsRead := 0 }
      | none =>
        if loadOk then
          { exitCode := none, moduleLoaded := true, protocolOut := [], requestsRead := 0 }
        else
          { exitCode := some 1, moduleLoaded := true, protocolOut := [], requestsRead := 0 }

/-! ## Timeout Executor

`call_method_with_timeout_signal` / `call_method_with_timeout_threading`.
A method invocation is abstracted by its observable behaviour: it either
completes after `secs` seconds of wall-clock time (returning a value or
raising an exception), or it never returns.  The strategies turn that
behaviour into the result dict of the Python functions; `none` means the
strategy call itself never returns.
-/

/-- What a completed method call produced: a return value, or a raised
exception (`str(e)` and `traceback.format_exc()`). -/
inductive MethodResult where
  | ret (v : Json)
  | exn (msg : String) (tb : String)

/-- Observable behaviour of one method invocation. -/
inductive MethodBehavior where
  | completes (secs : Nat) (result : MethodResult)
  | hangs

/-- The result dict both strategies return:
`{"success": bool}` plus optional `"result"`, `"error"`, `"traceback"`
keys (an `Option` field is `none` when the key is absent). -/
structure StrategyResult where
  success : Bool
  result : Option Json := none
  error : Option String := none
  traceback : Option String := none

/-- `f"Method execution timeout ({timeout_secs} seconds)"`. -/
def timeoutMessage (secs : Nat) : String :=
  s!"Method execution timeout ({secs} seconds)"

/-- The timeout result dict: `{"success": False, "error": <message>}`,
with no `"result"` and no `"traceback"` key. -/
def timeoutFailure (secs : Nat) : StrategyResult :=
  { success := false, error := some (timeoutMessage secs) }

/-- Whether an invocation's behaviour exceeds an `n`-second timeout. -/
def exceedsTimeout : MethodBehavior → Nat → Bool
  | .hangs, _ => true
  | .completes secs _, n => n < secs

/-- `call_method_with_timeout_signal` (Unix): install a SIGALRM handler
raising `TimeoutError`, arm `signal.alarm(timeout_secs)`, call the
method, cancel the alarm.  `signal.alarm(0)` cancels any pending alarm
instead of arming one, so with `timeout_secs = 0` no alarm is ever
delivered and the call runs unbounded (`none` if the method hangs). -/
def call_method_with_timeout_signal (method : Json → MethodBehavior) (params : Json)
    (timeout_secs : Nat) : Option StrategyResult :=
  match method params with
  | .hangs =>
    if 0 < timeout_secs then some (timeoutFailure timeout_secs) else none
  | .completes secs res =>
    if 0 < timeout_secs ∧ timeout_secs < secs then
      some (timeoutFailure timeout_secs)
    else
      match res with
      | .ret v => some { success := true, result := some v }
      | .exn msg tb => some { success := false, error := some msg, traceback := some tb }

/-- `call_method_with_timeout_threading` (cross-platform): run the
method on a daemon worker thread, `join` with the timeout; if the worker
is still alive afterwards report a timeout (the worker is abandoned, not
terminated), otherwise translate the worker's recorded outcome. -/
def call_method_with_timeout_threading (method : Json → MethodBehavior) (params : Json)
    (timeout_secs : Nat) : Option StrategyResult :=
  match method params with
  | .hangs => some (timeoutFailure timeout_secs)
  | .completes secs res =>
    if timeout_secs < secs then
      some (timeoutFailure timeout_secs)
    else
      match res with
      | .ret v => some { success := true, result := some v }
      | .exn msg tb => some { success := false, error := some msg, traceback := some tb }

/-- A timeout strategy, as selected once per process by
`call_method_with_timeout = ...` from `sys.platform`. -/
abbrev Strategy := (Json → MethodBehavior) → Json → Nat → Option StrategyResult

/-- `DEFAULT_METHOD_TIMEOUT = int(os.getenv("PYTHON_METHOD_TIMEOUT_SECS", "8"))`,
with `env` the parsed value of the environment variable when it is set. -/
def DEFAULT_METHOD_TIMEOUT (env : Option Nat) : Nat :=
  env.getD 8

/-! ## User module and Method Registry -/

/-- A module attribute: whether `callable(...)` holds of it, and the
behaviour of calling it with one positional argument (calling a
non-callable models the `TypeError` Python raises). -/
structure Attr where
  isCallable : Bool
  call : Json → MethodBehavior

/-- The loaded user module: its namespace as an association list (the
names `dir(user_logic)` reports, each with its attribute), plus the
value of `EXIV_MANIFEST` when the script defines one. -/
structure UserModule where
  attrs : List (String × Attr)
  manifest : Option Json

/-- `CORE_METHODS = {"think", "execute", "setup", "get_manifest"}`. -/
def CORE_METHODS : List String :=
  ["think", "execute", "setup", "get_manifest"]

/-- ASCII `[a-z]`. -/
def isLowerAlpha (c : Char) : Bool :=
  'a' ≤ c && c ≤ 'z'

/-- ASCII `[a-z0-9_]`. -/
def isActionBodyChar (c : Char) : Bool :=
  isLowerAlpha c || ('0' ≤ c && c ≤ '9') || c = '_'

/-- `re.match(r'^on_action_[a-z][a-z0-9_]*$', s)` as a boolean. -/
def matchesActionPattern (s : String) : Bool :=
  ("on_action_".data.isPrefixOf s.data) &&
    (match s.data.drop 10 with
     | [] => false
     | c :: rest => isLowerAlpha c && rest.all isActionBodyChar)

/-- `REGISTERED_ACTIONS`: the attribute names that start with
`on_action_`, match the action regex, and are callable. -/
def registered_actions (m : UserModule) : List String :=
  (m.attrs.filter fun nm =>
    ("on_action_".data.isPrefixOf nm.1.data) && matchesActionPattern nm.1 &&
      nm.2.isCallable).map Prod.fst

/-- `ALLOWED_METHODS = CORE_METHODS | REGISTERED_ACTIONS` (membership is
what the dispatcher tests, so the union is modelled by appending). -/
def allowed_methods (m : UserModule) : List String :=
  CORE_METHODS ++ registered_actions m

/-! ## Protocol Dispatcher -/

/-- The literal default manifest returned by `get_manifest` when the
script defines no `EXIV_MANIFEST`. -/
def defaultManifest : Json :=
  .obj [("id", .str "python.unnamed"),
        ("name", .str "Unnamed Python Script"),
        ("description", .str "No description provided."),
        ("version", .str "0.0.0"),
        ("capabilities", .arr [.str "Reasoning"])]

/-- `f"Method '{method_name}' is not allowed"`. -/
def notAllowedMsg (methodName : Json) : String :=
  "Method \x27" ++ pyStr methodName ++ "\x27 is not allowed"

/-- `f"Method '{method_name}' not found in user script"`. -/
def notFoundMsg (name : String) : String :=
  "Method \x27" ++ name ++ "\x27 not found in user script"

/-- `str(e)` of the `AttributeError` raised by `request.get(...)` when
the parsed line is not a dict. -/
def noGetAttrMsg (v : Json) : String :=
  "\x27" ++ pyTypeName v ++ "\x27 object has no attribute \x27get\x27"

/-- One invocation handed to the Timeout Executor: which method, and
the `timeout_secs` argument it was given. -/
structure ExecCall where
  methodName : String
  timeoutSecs : Nat

/-- What handling one input line did: the protocol lines written for
it, and the Timeout Executor invocation it performed, if any. -/
structure LineOutcome where
  out : List Json
  execCall : Option ExecCall

/-- Handling of one successfully parsed request line (the body of the
`try` in the dispatch loop, plus the generic `except` that turns any
exception into `{"error": str(e)}`).  `dt` is `DEFAULT_METHOD_TIMEOUT`.
`none` means the Timeout Executor call never returned, so no response
line is ever written for the request. -/
def dispatch_request (strat : Strategy) (dt : Nat) (m : UserModule) (request : Json) :
    Option LineOutcome :=
  match request with
  | .obj fields =>
    let method_name := (jsonGet fields "method").getD .null
    let params := (jsonGet fields "params").getD .null
    let request_id := (jsonGet fields "id").getD .null
    -- `method_name == "get_manifest"` can only hold of a string value,
    -- so the equality test is matched on the string case first.
    match method_name with
    | .str name =>
      if name = "get_manifest" then
        some ⟨[.obj [("id", request_id), ("result", m.manifest.getD defaultManifest)]], none⟩
      else
        if (allowed_methods m).contains name then
          match m.attrs.lookup name with
          | none =>
            some ⟨[.obj [("id", request_id), ("error", .str (notFoundMsg name))]], none⟩
          | some attr =>
            match strat attr.call params dt with
            | none => none
            | some r =>
              if r.success then
                some ⟨[.obj [("id", request_id), ("result", r.result.getD .null)]],
                      some ⟨name, dt⟩⟩
              else
                some ⟨[.obj [("id", request_id), ("error", .str (r.error.getD ""))]],
                      some ⟨name, dt⟩⟩
        else
          some ⟨[.obj [("id", request_id), ("error", .str (notAllowedMsg (.str name)))]], none⟩
    | .arr elems =>
      -- `method_name in ALLOWED_METHODS` raises `TypeError` on an
      -- unhashable value; the dispatch-level except replaces the whole
      -- response with `{"error": str(e)}`, so the id is dropped.
      some ⟨[.obj [("error", .str (unhashableMsg (.arr elems)))]], none⟩
    | .obj ofs =>
      some ⟨[.obj [("error", .str (unhashableMsg (.obj ofs)))]], none⟩
    | mv =>
      -- `None`, booleans and numbers are hashable: set membership is
      -- simply false and the not-allowed response keeps the id.
      some ⟨[.obj [("id", request_id), ("error", .str (notAllowedMsg mv))]], none⟩
  | v =>
    -- `request.get("method")` raises AttributeError; the dispatch-level
    -- `except` replaces the response with `{"error": str(e)}` (no id).
    some ⟨[.obj [("error", .str (noGetAttrMsg v))]], none⟩

/-- CPython's `str.isspace` character class, which `str.strip()` with no
arguments strips. -/
def pyIsSpace (c : Char) : Bool :=
  let n := c.toNat
  (9 ≤ n && n ≤ 13) || (28 ≤ n && n ≤ 32) || n = 0x85 || n = 0xA0 || n = 0x1680 ||
    (0x2000 ≤ n && n ≤ 0x200A) || n = 0x2028 || n = 0x2029 || n = 0x202F || n = 0x205F ||
    n = 0x3000

/-- `not line.strip()`: the line is empty or all whitespace. -/
def strippedIsEmpty (s : String) : Bool :=
  s.data.all pyIsSpace

/-- One line read from stdin: its text, paired with the outcome of
`json.loads` on it (`.error` carries `str(e)` of the decode error). -/
structure PyLine where
  text : String
  loads : Except String Json

/-- Handling of one stdin line by the dispatch loop: blank lines are
skipped before parsing; a parse failure becomes `{"error": str(e)}`;
otherwise the request is dispatched. -/
def process_line (strat : Strategy) (dt : Nat) (m : UserModule) (l : PyLine) :
    Option LineOutcome :=
  if strippedIsEmpty l.text then
    some ⟨[], none⟩
  else
    match l.loads with
    | .error e => some ⟨[.obj [("error", .str e)]], none⟩
    | .ok v => dispatch_request strat dt m v

/-- The dispatch loop over a whole stdin: lines are handled strictly in
order on the single dispatch thread, each line's responses being written
before the next line is read.  `none` means some invocation never
returned and the loop never reached the end of input. -/
def run_loop (strat : Strategy) (dt : Nat) (m : UserModule) :
    List PyLine → Option (List Json)
  | [] => some []
  | l :: rest =>
    match process_line strat dt m l with
    | none => none
    | some o =>
      match run_loop strat dt m rest with
      | none => none
      | some outs => some (o.out ++ outs)

/-- Per-line response contract used by the FIFO theorem: a non-blank
line that parses as a JSON object gets exactly one response; when the
request's method value is hashable the response's `id` field (the first
field of the response dict) echoes the request's, and when it is a JSON
array or object the response is the id-less `unhashable type` error. -/
def ObjectLineResponds (l : PyLine) (o : List Json) : Prop :=
  ∀ fields, strippedIsEmpty l.text = false → l.loads = .ok (.obj fields) →
    (∃ fs, o = [Json.obj fs]) ∧
    (jsonHashable ((jsonGet fields "method").getD Json.null) = true →
      ∃ rest, o = [Json.obj (("id", (jsonGet fields "id").getD Json.null) :: rest)]) ∧
    (jsonHashable ((jsonGet fields "method").getD Json.null) = false →
      o = [Json.obj [("error",
        Json.str (unhashableMsg ((jsonGet fields "method").getD Json.null)))]])

/-! ## Event Emitter and the writer lock

Both `emit_event` and the dispatch loop's response write perform
`with stdout_lock: __original_stdout.write(json.dumps(v) + "\n");
__original_stdout.flush()`.  To state byte-level atomicity we give a
small-step interleaving semantics for two threads each writing one
serialized line through that critical section.  A `write` of a string is
deliberately split into one micro-step per character: without the lock,
the scheduler could interleave the two writers mid-line.
-/

/-- Micro-instructions of the critical section. -/
inductive WInstr where
  | acquire
  | wr (c : Char)
  | flush
  | release

/-- A two-writer system: who holds `stdout_lock`, the remaining
programs of the two threads, and the bytes written to the protocol
stream so far, tagged with the writing thread. -/
structure WriterSys where
  lock : Option Bool
  prog1 : List WInstr
  prog2 : List WInstr
  out : List (Bool × Char)

/-- The critical section executed to emit one line `s` (an Event from
`emit_event`, or a Response from the dispatch loop): take the lock,
write the serialized line, flush, release. -/
def emitProg (s : String) : List WInstr :=
  WInstr.acquire :: (s.data.map WInstr.wr ++ [WInstr.flush, WInstr.release])

/-- The contiguous block of bytes thread `t` contributes for text `cs`. -/
def wrBlock (t : Bool) (cs : List Char) : List (Bool × Char) :=
  cs.map fun c => (t, c)

/-- Interleaving semantics: at each step the scheduler runs the next
micro-instruction of either thread.  Only `acquire` blocks (it requires
the lock to be free); writing itself is never gated by the hardware, the
mutual exclusion comes solely from the programs taking the lock first. -/
inductive WStep : WriterSys → WriterSys → Prop where
  | acq1 (rest p2 o) :
    WStep ⟨none, WInstr.acquire :: rest, p2, o⟩ ⟨some true, rest, p2, o⟩
  | wr1 (lk c rest p2 o) :
    WStep ⟨lk, WInstr.wr c :: rest, p2, o⟩ ⟨lk, rest, p2, o ++ [(true, c)]⟩
  | flush1 (lk rest p2 o) :
    WStep ⟨lk, WInstr.flush :: rest, p2, o⟩ ⟨lk, rest, p2, o⟩
  | rel1 (lk rest p2 o) :
    WStep ⟨lk, WInstr.release :: rest, p2, o⟩ ⟨none, rest, p2, o⟩
  | acq2 (p1 rest o) :
    WStep ⟨none, p1, WInstr.acquire :: rest, o⟩ ⟨some false, p1, rest, o⟩
  | wr2 (lk p1 c rest o) :
    WStep ⟨lk, p1, WInstr.wr c :: rest, o⟩ ⟨lk, p1, rest, o ++ [(false, c)]⟩
  | flush2 (lk p1 rest o) :
    WStep ⟨lk, p1, WInstr.flush :: rest, o⟩ ⟨lk, p1, rest, o⟩
  | rel2 (lk p1 rest o) :
    WStep ⟨lk, p1, WInstr.release :: rest, o⟩ ⟨none, p1, rest, o⟩

/-- States reachable from two threads about to emit lines `s1` and `s2`
concurrently onto the shared protocol stream. -/
def WriterReach (s1 s2 : String) (st : WriterSys) : Prop :=
  Relation.ReflTransGen WStep ⟨none, emitProg s1, emitProg s2, []⟩ st

/-- Where one thread can be while executing `emitProg s`: not started;
holding the lock having written `done` of its chars; holding the lock
fully written (flush done, release pending); or finished.  The `Bool`
records whether the thread holds the lock there. -/
inductive WPhase (s : String) : List WInstr → List Char → Bool → Prop where
  | idle : WPhase s (emitProg s) [] false
  | writing (done rest : List Char) (h : s.data = done ++ rest) :
    WPhase s (rest.map WInstr.wr ++ [WInstr.flush, WInstr.release]) done true
  | flushed : WPhase s [WInstr.release] s.data true
  | finished : WPhase s [] s.data false

/-- Inductive invariant of the two-writer system: each thread is in a
phase of its own program, the lock is held by exactly the thread whose
phase holds it, and the output so far is two contiguous per-thread
blocks, of which only the last may be incomplete. -/
def WInv (s1 s2 : String) (st : WriterSys) : Prop :=
  ∃ c1 h1 c2 h2,
    WPhase s1 st.prog1 c1 h1 ∧ WPhase s2 st.prog2 c2 h2 ∧
    ¬(h1 = true ∧ h2 = true) ∧
    st.lock = (if h1 then some true else if h2 then some false else none) ∧
    ((st.out = wrBlock true c1 ++ wrBlock false c2 ∧ (c2 ≠ [] → c1 = s1.data)) ∨
     (st.out = wrBlock false c2 ++ wrBlock true c1 ∧ (c1 ≠ [] → c2 = s2.data)))

/-! ## Concrete fixtures

A small user module and some requests, used to instantiate the theorems
on concrete inputs.
-/

/-- A `think` method that returns `{"ok": true}` immediately. -/
def thinkAttr : Attr :=
  ⟨true, fun _ => .completes 0 (.ret (.obj [("ok", .bool true)]))⟩

/-- An `execute` method that never returns. -/
def hangAttr : Attr :=
  ⟨true, fun _ => .hangs⟩

/-- A script module defining `think` (fast) and `execute` (hangs), and
no `EXIV_MANIFEST`. -/
def sampleModule : UserModule :=
  ⟨[("think", thinkAttr), ("execute", hangAttr)], none⟩

/-- `{"id": 1, "method": "think", "params": {}}` as parsed fields. -/
def reqThink : List (String × Json) :=
  [("id", .num 1), ("method", .str "think"), ("params", .obj [])]

/-- `{"id": 2, "method": "get_manifest", "params": null}` as parsed fields. -/
def reqManifest : List (String × Json) :=
  [("id", .num 2), ("method", .str "get_manifest"), ("params", .null)]

/-- `{"id": 3, "method": "frobnicate"}` as parsed fields: a method name
neither core nor a discovered action. -/
def reqFrob : List (String × Json) :=
  [("id", .num 3), ("method", .str "frobnicate")]

/-- `{"id": 4, "method": "execute", "params": null}` as parsed fields:
dispatches to the hanging `execute` method of `sampleModule`. -/
def reqExec : List (String × Json) :=
  [("id", .num 4), ("method", .str "execute"), ("params", .null)]

/-- `{"id": 1, "method": "think", "params": null, "timeout": 3}` as
parsed fields: a request that tries to specify its own timeout. -/
def reqWithTimeout : List (String × Json) :=
  [("id", .num 1), ("method", .str "think"), ("params", .null), ("timeout", .num 3)]

/-- The stdin line carrying `reqThink`. -/
def lineThink : PyLine :=
  ⟨"\x7b\"id\": 1, \"method\": \"think\", \"params\": \x7b\x7d\x7d", .ok (.obj reqThink)⟩

/-- The stdin line carrying `reqManifest`. -/
def lineManifest : PyLine :=
  ⟨"\x7b\"id\": 2, \"method\": \"get_manifest\", \"params\": null\x7d", .ok (.obj reqManifest)⟩

/-- A stdin line that is not valid JSON. -/
def lineBad : PyLine :=
  ⟨"nonsense", .error "Expecting value: line 1 column 1 (char 0)"⟩

/-- A stdin line that is valid JSON but not an object. -/
def lineArr : PyLine :=
  ⟨"[1, 2]", .ok (.arr [.num 1, .num 2])⟩

/-- A blank stdin line. -/
def lineBlank : PyLine :=
  ⟨"   ", .error "Expecting value: line 1 column 4 (char 3)"⟩

/-! ## Helper lemmas -/

/-- A node with a forbidden import makes `check_script_security` report
a violation for it. -/
theorem nodeViolation_isSome_of_forbidden {n : AstNode}
    (h : hasForbiddenImport n = true) : (nodeViolation n).isSome := by
  cases n with
  | importStmt names line =>
    simp only [hasForbiddenImport, List.any_eq_true] at h
    obtain ⟨nm, hmem, hf⟩ := h
    have hf' : topSegment nm ∈ FORBIDDEN_MODULES := by simpa [List.contains] using hf
    simp only [nodeViolation, List.findSome?_isSome_iff]
    exact ⟨nm, hmem, by simp [hf']⟩
  | importFrom module names line =>
    cases module with
    | none => simp [hasForbiddenImport] at h
    | some mod =>
      simp only [hasForbiddenImport] at h
      have h' : topSegment mod ∈ FORBIDDEN_MODULES := by simpa [List.contains] using h
      simp [nodeViolation, h']
  | callName funcId line => simp [hasForbiddenImport] at h
  | callOther line => simp [hasForbiddenImport] at h
  | other => simp [hasForbiddenImport] at h

/-- A script containing any forbidden import fails the security gate. -/
theorem check_script_security_isSome_of_forbidden {nodes : List AstNode}
    (h : nodes.any hasForbiddenImport = true) :
    (check_script_security nodes).isSome := by
  simp only [List.any_eq_true] at h
  obtain ⟨n, hmem, hf⟩ := h
  simp only [check_script_security, List.findSome?_isSome_iff]
  exact ⟨n, hmem, nodeViolation_isSome_of_forbidden hf⟩

/-- Prepending a field with a different key leaves `dict.get` unchanged. -/
theorem jsonGet_cons_ne {k key : String} {v : Json} {fs : List (String × Json)}
    (h : ¬k = key) : jsonGet ((k, v) :: fs) key = jsonGet fs key := by
  simp only [jsonGet]
  cases hg : jsonGet fs key <;> simp [hg, h]

/-- Every invocation the dispatcher hands to the Timeout Executor is
given exactly the `timeout_secs` the dispatcher was configured with. -/
theorem dispatch_execCall_timeout {strat : Strategy} {dt : Nat} {m : UserModule}
    {v : Json} {lo : LineOutcome} {c : ExecCall}
    (h : dispatch_request strat dt m v = some lo) (hc : lo.execCall = some c) :
    c.timeoutSecs = dt := by
  cases v <;> simp only [dispatch_request] at h <;>
    try (obtain rfl := Option.some.inj h; simp at hc)
  case obj fields =>
    repeat' split at h
    all_goals
      cases h <;>
        first
        | (obtain rfl := Option.some.inj hc; rfl)
        | simp at hc

/-- The dispatcher never reads a `"timeout"` field of the request: its
presence does not change the handling at all. -/
theorem dispatch_ignores_timeout_field (strat : Strategy) (dt : Nat) (m : UserModule)
    (fields : List (String × Json)) (t : Json) :
    dispatch_request strat dt m (.obj (("timeout", t) :: fields)) =
      dispatch_request strat dt m (.obj fields) := by
  simp only [dispatch_request,
    jsonGet_cons_ne (show ¬"timeout" = "method" by decide),
    jsonGet_cons_ne (show ¬"timeout" = "params" by decide),
    jsonGet_cons_ne (show ¬"timeout" = "id" by decide)]

/-- For a parsed JSON-object line whose method value is hashable, the
dispatcher's single response is an object whose first field echoes the
request's id. -/
theorem dispatch_obj_responds {strat : Strategy} {dt : Nat} {m : UserModule}
    {fields : List (String × Json)} {lo : LineOutcome}
    (h : dispatch_request strat dt m (Json.obj fields) = some lo)
    (hh : jsonHashable ((jsonGet fields "method").getD Json.null) = true) :
    ∃ rest, lo.out = [Json.obj (("id", (jsonGet fields "id").getD Json.null) :: rest)] := by
  simp only [dispatch_request] at h
  repeat' split at h
  all_goals
    cases h <;>
      first
      | exact ⟨_, rfl⟩
      | simp_all [jsonHashable]

/-- For a parsed JSON-object line whose method value is a JSON array or
object, the membership test raises `TypeError` and the dispatcher's
single response is the id-less `unhashable type` error. -/
theorem dispatch_unhashable_method {strat : Strategy} {dt : Nat} {m : UserModule}
    {fields : List (String × Json)} {lo : LineOutcome}
    (h : dispatch_request strat dt m (Json.obj fields) = some lo)
    (hh : jsonHashable ((jsonGet fields "method").getD Json.null) = false) :
    lo.out = [Json.obj [("error",
      Json.str (unhashableMsg ((jsonGet fields "method").getD Json.null)))]] := by
  cases hm : (jsonGet fields "method").getD Json.null with
  | arr elems =>
    simp only [dispatch_request, hm] at h
    cases h
    rfl
  | obj ofs =>
    simp only [dispatch_request, hm] at h
    cases h
    rfl
  | null => rw [hm] at hh; simp [jsonHashable] at hh
  | bool b => rw [hm] at hh; simp [jsonHashable] at hh
  | num n => rw [hm] at hh; simp [jsonHashable] at hh
  | str s => rw [hm] at hh; simp [jsonHashable] at hh

/-- Every response the dispatcher produces is a single object carrying a
`result` field or an `error` field. -/
theorem dispatch_responds_result_or_error {strat : Strategy} {dt : Nat} {m : UserModule}
    {v : Json} {lo : LineOutcome}
    (h : dispatch_request strat dt m v = some lo) :
    ∃ fs, lo.out = [Json.obj fs] ∧
      ((jsonGet fs "result").isSome ∨ (jsonGet fs "error").isSome) := by
  cases v <;> simp only [dispatch_request] at h
  case obj fields =>
    repeat' split at h
    all_goals
      cases h <;> exact ⟨_, rfl, by simp [jsonGet]⟩
  all_goals
    cases h <;> exact ⟨_, rfl, by simp [jsonGet]⟩

/-- A discovered action method is always actually defined on the
module: the registry scans `dir(user_logic)` itself. -/
theorem lookup_isSome_of_registered {m : UserModule} {name : String}
    (h : name ∈ registered_actions m) : (m.attrs.lookup name).isSome := by
  simp only [registered_actions, List.mem_map] at h
  obtain ⟨p, hp, rfl⟩ := h
  have hp' : p ∈ m.attrs := List.mem_of_mem_filter hp
  exact List.lookup_isSome_iff.mpr ⟨p, hp', by simp⟩

/-! ## Claim C1 -/

/-- C1: a script whose source contains an import (plain or `from` form)
whose top-level dotted-path segment is forbidden is rejected by
`check_script_security`, and `main` exits with code 1 before the module
is loaded, before any request is read from stdin, and before anything is
written to the protocol stream.  The analysis itself is a pure function
of the source's AST. -/
theorem security_gate_rejects_forbidden_import
    (nodes : List AstNode) (loadOk : Bool)
    (h : nodes.any hasForbiddenImport = true) :
    (∃ e, check_script_security nodes = some e) ∧
    (main_startup true true (.ok nodes) loadOk).exitCode = some 1 ∧
    (main_startup true true (.ok nodes) loadOk).moduleLoaded = false ∧
    (main_startup true true (.ok nodes) loadOk).protocolOut = [] ∧
    (main_startup true true (.ok nodes) loadOk).requestsRead = 0 := by
  obtain ⟨e, he⟩ :=
    Option.isSome_iff_exists.mp (check_script_security_isSome_of_forbidden h)
  exact ⟨⟨e, he⟩, by simp [main_startup, he], by simp [main_startup, he],
         by simp [main_startup, he], by simp [main_startup, he]⟩

/-- C1 instantiated on the one-line script `import os`. -/
theorem security_gate_rejects_forbidden_import_witness :
    (∃ e, check_script_security [AstNode.importStmt ["os"] 1] = some e) ∧
    (main_startup true true (.ok [AstNode.importStmt ["os"] 1]) true).exitCode = some 1 ∧
    (main_startup true true (.ok [AstNode.importStmt ["os"] 1]) true).moduleLoaded = false ∧
    (main_startup true true (.ok [AstNode.importStmt ["os"] 1]) true).protocolOut = [] ∧
    (main_startup true true (.ok [AstNode.importStmt ["os"] 1]) true).requestsRead = 0 :=
  security_gate_rejects_forbidden_import [AstNode.importStmt ["os"] 1] true (by decide)

/-! ## Claim C2

The claim as stated fails for a configured timeout of 0 seconds: in
`call_method_with_timeout_signal`, `signal.alarm(0)` cancels any pending
alarm instead of arming one, so no timeout is ever delivered and a
method exceeding its 0-second timeout runs to completion.  For every
positive timeout the claim holds, under both strategies.
-/

/-- C2 counterexample: a method taking 1 second exceeds its 0-second
timeout, yet the signal strategy returns a success outcome, not the
claimed `Method execution timeout (0 seconds)` failure. -/
theorem signal_zero_timeout_counterexample :
    exceedsTimeout ((fun _ => MethodBehavior.completes 1 (.ret .null)) Json.null) 0 = true ∧
    call_method_with_timeout_signal (fun _ => MethodBehavior.completes 1 (.ret .null))
        Json.null 0
      = some { success := true, result := some Json.null } ∧
    call_method_with_timeout_signal (fun _ => MethodBehavior.completes 1 (.ret .null))
        Json.null 0
      ≠ some (timeoutFailure 0) := by
  refine ⟨rfl, rfl, fun h => ?_⟩
  have h' : (true : Bool) = false :=
    congrArg StrategyResult.success (Option.some.inj h)
  exact absurd h' (by decide)

/-- C2 (amended): for every method invocation that exceeds its timeout
of `n` seconds where `n` is positive (with `n = 0` the signal strategy
arms no alarm at all), both strategies return the failure outcome whose
error message is exactly `Method execution timeout (n seconds)` and
which carries no result and no traceback, and the Response the
dispatcher writes for such a request is `{id, error: that message}`. -/
theorem timeout_failure_exact_message (strat : Strategy)
    (hstrat : strat = call_method_with_timeout_signal ∨
              strat = call_method_with_timeout_threading)
    (m : UserModule) (fields : List (String × Json)) (name : String) (attr : Attr) (n : Nat)
    (hn : 0 < n)
    (hmeth : (jsonGet fields "method").getD Json.null = Json.str name)
    (hng : ¬name = "get_manifest")
    (hallow : (allowed_methods m).contains name = true)
    (hdef : m.attrs.lookup name = some attr)
    (hex : exceedsTimeout (attr.call ((jsonGet fields "params").getD Json.null)) n = true) :
    strat attr.call ((jsonGet fields "params").getD Json.null) n = some (timeoutFailure n) ∧
    (timeoutFailure n).error = some (timeoutMessage n) ∧
    (timeoutFailure n).traceback = none ∧
    (timeoutFailure n).result = none ∧
    dispatch_request strat n m (Json.obj fields) =
      some ⟨[Json.obj [("id", (jsonGet fields "id").getD Json.null),
                       ("error", Json.str (timeoutMessage n))]], some ⟨name, n⟩⟩ := by
  have hs : strat attr.call ((jsonGet fields "params").getD Json.null) n
      = some (timeoutFailure n) := by
    rcases hstrat with h | h <;> subst h
    · cases hb : attr.call ((jsonGet fields "params").getD Json.null) with
      | hangs => simp [call_method_with_timeout_signal, hb, hn]
      | completes secs res =>
        have hlt : n < secs := by simpa [exceedsTimeout, hb] using hex
        simp [call_method_with_timeout_signal, hb, hn, hlt]
    · cases hb : attr.call ((jsonGet fields "params").getD Json.null) with
      | hangs => simp [call_method_with_timeout_threading, hb]
      | completes secs res =>
        have hlt : n < secs := by simpa [exceedsTimeout, hb] using hex
        simp [call_method_with_timeout_threading, hb, hlt]
  have hallow' : name ∈ allowed_methods m := by simpa [List.contains] using hallow
  refine ⟨hs, rfl, rfl, rfl, ?_⟩
  simp [dispatch_request, hmeth, hng, hallow', hdef, hs, timeoutFailure]

/-- C2 (amended) instantiated: the hanging `execute` method of
`sampleModule` under the signal strategy with the default 8-second
timeout. -/
theorem timeout_failure_exact_message_witness :
    call_method_with_timeout_signal hangAttr.call
        ((jsonGet reqExec "params").getD Json.null) 8 = some (timeoutFailure 8) ∧
    (timeoutFailure 8).error = some (timeoutMessage 8) ∧
    (timeoutFailure 8).traceback = none ∧
    (timeoutFailure 8).result = none ∧
    dispatch_request call_method_with_timeout_signal 8 sampleModule (Json.obj reqExec) =
      some ⟨[Json.obj [("id", (jsonGet reqExec "id").getD Json.null),
                       ("error", Json.str (timeoutMessage 8))]], some ⟨"execute", 8⟩⟩ :=
  timeout_failure_exact_message call_method_with_timeout_signal (Or.inl rfl)
    sampleModule reqExec "execute" hangAttr 8 (by decide) rfl (by decide)
    (by decide) rfl rfl

/-! ## Claim C7

The claim as stated fails: the dispatch loop always passes
`DEFAULT_METHOD_TIMEOUT` to the Timeout Executor and never consults the
request, so a request-specified timeout is not used instead of the
default — it is ignored entirely.
-/

/-- C7 counterexample: a request carrying `"timeout": 3` is dispatched
with the environment default of 8 seconds, not 3. -/
theorem request_timeout_field_ignored :
    dispatch_request call_method_with_timeout_signal (DEFAULT_METHOD_TIMEOUT none)
        sampleModule (Json.obj reqWithTimeout)
      = some ⟨[Json.obj [("id", Json.num 1), ("result", Json.obj [("ok", Json.bool true)])]],
              some ⟨"think", 8⟩⟩ ∧
    ¬(8 : Nat) = 3 :=
  ⟨rfl, by decide⟩

/-- C7 (amended): the timeout handed to the Timeout Executor is always
the environment-configured default (`8` when the variable is unset);
a `"timeout"` field in the request is ignored — its presence does not
change the dispatch at all. -/
theorem executor_timeout_is_env_default (strat : Strategy) (env : Option Nat)
    (m : UserModule) (fields : List (String × Json)) (t : Json)
    (lo : LineOutcome) (c : ExecCall)
    (h : dispatch_request strat (DEFAULT_METHOD_TIMEOUT env) m (.obj fields) = some lo)
    (hc : lo.execCall = some c) :
    c.timeoutSecs = DEFAULT_METHOD_TIMEOUT env ∧
    DEFAULT_METHOD_TIMEOUT none = 8 ∧
    dispatch_request strat (DEFAULT_METHOD_TIMEOUT env) m (.obj (("timeout", t) :: fields)) =
      dispatch_request strat (DEFAULT_METHOD_TIMEOUT env) m (.obj fields) :=
  ⟨dispatch_execCall_timeout h hc, rfl, dispatch_ignores_timeout_field ..⟩

/-- C7 (amended) instantiated on `reqThink` with an unset environment
variable. -/
theorem executor_timeout_is_env_default_witness :
    (⟨"think", 8⟩ : ExecCall).timeoutSecs = DEFAULT_METHOD_TIMEOUT none ∧
    DEFAULT_METHOD_TIMEOUT none = 8 ∧
    dispatch_request call_method_with_timeout_signal (DEFAULT_METHOD_TIMEOUT none)
        sampleModule (.obj (("timeout", Json.num 3) :: reqThink)) =
      dispatch_request call_method_with_timeout_signal (DEFAULT_METHOD_TIMEOUT none)
        sampleModule (.obj reqThink) :=
  executor_timeout_is_env_default call_method_with_timeout_signal none
    sampleModule reqThink (Json.num 3)
    ⟨[Json.obj [("id", Json.num 1), ("result", Json.obj [("ok", Json.bool true)])]],
     some ⟨"think", 8⟩⟩ ⟨"think", 8⟩ rfl rfl

/-! ## Claim C3 -/

/-- C3: for a request whose method name is not `get_manifest`: a name
outside the union of the core set and the discovered action set gets a
"not allowed" error and the Timeout Executor is never invoked; a name in
the union but not defined on the module (possible only for core names)
gets a "not found" error; otherwise the method is invoked through the
Timeout Executor. -/
theorem dispatch_method_resolution (strat : Strategy) (dt : Nat) (m : UserModule)
    (fields : List (String × Json)) (name : String)
    (hmv : (jsonGet fields "method").getD Json.null = Json.str name)
    (hng : ¬name = "get_manifest") :
    ((allowed_methods m).contains name = false →
      dispatch_request strat dt m (Json.obj fields) =
        some ⟨[Json.obj [("id", (jsonGet fields "id").getD Json.null),
                         ("error", Json.str (notAllowedMsg (Json.str name)))]], none⟩) ∧
    ((allowed_methods m).contains name = true →
      (m.attrs.lookup name = none →
        name ∈ CORE_METHODS ∧
        dispatch_request strat dt m (Json.obj fields) =
          some ⟨[Json.obj [("id", (jsonGet fields "id").getD Json.null),
                           ("error", Json.str (notFoundMsg name))]], none⟩) ∧
      (∀ attr, m.attrs.lookup name = some attr →
        ∀ lo, dispatch_request strat dt m (Json.obj fields) = some lo →
          lo.execCall = some ⟨name, dt⟩)) := by
  constructor
  · intro hna
    have hcont : ¬name ∈ allowed_methods m := by
      simpa [List.contains] using hna
    simp [dispatch_request, hmv, hng, hcont, notAllowedMsg]
  · intro hallow
    have hmem : name ∈ allowed_methods m := by
      simpa [List.contains] using hallow
    constructor
    · intro hlook
      constructor
      · rcases List.mem_append.mp hmem with hcore | hreg
        · exact hcore
        · exact absurd (lookup_isSome_of_registered hreg) (by simp [hlook])
      · simp [dispatch_request, hmv, hng, hmem, hlook, notFoundMsg]
    · intro attr hlook lo hdisp
      simp only [dispatch_request, hmv] at hdisp
      rw [if_neg hng] at hdisp
      rw [if_pos (by simpa [List.contains] using hmem)] at hdisp
      rw [hlook] at hdisp
      dsimp only at hdisp
      cases hs : strat attr.call ((jsonGet fields "params").getD Json.null) dt with
      | none => rw [hs] at hdisp; cases hdisp
      | some r =>
        rw [hs] at hdisp
        dsimp only at hdisp
        by_cases hr : r.success = true
        · rw [if_pos hr] at hdisp
          cases hdisp
          rfl
        · rw [if_neg hr] at hdisp
          cases hdisp
          rfl

/-- C3 instantiated on the unknown name `frobnicate`: a "not allowed"
error and no executor invocation. -/
theorem dispatch_method_resolution_witness :
    dispatch_request call_method_with_timeout_signal 8 sampleModule (Json.obj reqFrob) =
      some ⟨[Json.obj [("id", (jsonGet reqFrob "id").getD Json.null),
                       ("error", Json.str (notAllowedMsg (Json.str "frobnicate")))]],
            none⟩ :=
  (dispatch_method_resolution call_method_with_timeout_signal 8 sampleModule reqFrob
    "frobnicate" rfl (by decide)).1 (by decide)

/-! ## Claim C4 -/

/-- C4: a `get_manifest` request is answered immediately and
unconditionally without the Timeout Executor, with the module's declared
manifest, or with exactly the literal default manifest when the module
declares none. -/
theorem get_manifest_immediate (strat : Strategy) (dt : Nat) (m : UserModule)
    (fields : List (String × Json))
    (h : (jsonGet fields "method").getD Json.null = Json.str "get_manifest") :
    dispatch_request strat dt m (.obj fields) =
      some ⟨[.obj [("id", (jsonGet fields "id").getD Json.null),
                   ("result", m.manifest.getD defaultManifest)]], none⟩ ∧
    (m.manifest = none →
      dispatch_request strat dt m (.obj fields) =
        some ⟨[.obj [("id", (jsonGet fields "id").getD Json.null),
                     ("result", Json.obj
                       [("id", .str "python.unnamed"),
                        ("name", .str "Unnamed Python Script"),
                        ("description", .str "No description provided."),
                        ("version", .str "0.0.0"),
                        ("capabilities", .arr [.str "Reasoning"])])]], none⟩) := by
  refine ⟨by simp [dispatch_request, h], fun hm => ?_⟩
  simp [dispatch_request, h, hm, defaultManifest]

/-- C4 instantiated on `sampleModule`, which declares no manifest. -/
theorem get_manifest_immediate_witness :
    dispatch_request call_method_with_timeout_signal 8 sampleModule (.obj reqManifest) =
      some ⟨[.obj [("id", (jsonGet reqManifest "id").getD Json.null),
                   ("result", sampleModule.manifest.getD defaultManifest)]], none⟩ ∧
    (sampleModule.manifest = none →
      dispatch_request call_method_with_timeout_signal 8 sampleModule (.obj reqManifest) =
        some ⟨[.obj [("id", (jsonGet reqManifest "id").getD Json.null),
                     ("result", Json.obj
                       [("id", .str "python.unnamed"),
                        ("name", .str "Unnamed Python Script"),
                        ("description", .str "No description provided."),
                        ("version", .str "0.0.0"),
                        ("capabilities", .arr [.str "Reasoning"])])]], none⟩) :=
  get_manifest_immediate call_method_with_timeout_signal 8 sampleModule reqManifest rfl

/-! ## Claim C5

The claim as stated fails: a request whose `"method"` value is a JSON
array or object is a valid JSON object line, yet the membership test
`method_name in ALLOWED_METHODS` raises `TypeError` on the unhashable
value and the dispatch-level except replaces the response with
`{"error": "unhashable type: '...'"}` — no `id` is echoed.
-/

/-- C5 counterexample: the valid JSON object `{"id": 7, "method": [1, 2]}`
is answered by `{"error": "unhashable type: 'list'"}`, which carries no
`id` field at all, while the request's id is `7`. -/
theorem unhashable_method_drops_id :
    dispatch_request call_method_with_timeout_signal 8 sampleModule
        (Json.obj [("id", Json.num 7), ("method", Json.arr [Json.num 1, Json.num 2])])
      = some ⟨[Json.obj [("error", Json.str "unhashable type: \x27list\x27")]], none⟩ ∧
    jsonGet [("error", Json.str "unhashable type: \x27list\x27")] "id" = none ∧
    jsonGet [("id", Json.num 7), ("method", Json.arr [Json.num 1, Json.num 2])] "id"
      = some (Json.num 7) :=
  ⟨rfl, rfl, rfl⟩

/-- C5 (amended): every valid-JSON-object line gets exactly one
Response, and over any stdin the responses appear in exactly the order
the requests were read (the output stream is the in-order concatenation
of each line's responses).  The Response's `id` echoes the request's
whenever the request's method value is hashable (in particular for
every string method name); when the method value is a JSON array or
object the one Response is the id-less `unhashable type` error. -/
theorem responses_fifo_with_id_echo (strat : Strategy) (dt : Nat) (m : UserModule)
    (lines : List PyLine) (outs : List Json)
    (h : run_loop strat dt m lines = some outs) :
    ∃ outss : List (List Json),
      outs = outss.flatten ∧ List.Forall₂ ObjectLineResponds lines outss := by
  induction lines generalizing outs with
  | nil =>
    cases h
    exact ⟨[], rfl, List.Forall₂.nil⟩
  | cons l rest ih =>
    simp only [run_loop] at h
    cases hp : process_line strat dt m l with
    | none => rw [hp] at h; cases h
    | some o =>
      rw [hp] at h
      dsimp only at h
      cases hr : run_loop strat dt m rest with
      | none => rw [hr] at h; cases h
      | some outs' =>
        rw [hr] at h
        cases h
        obtain ⟨outss, rfl, hfa⟩ := ih outs' hr
        refine ⟨o.out :: outss, rfl, List.Forall₂.cons ?_ hfa⟩
        intro fields hblank hloads
        rw [process_line, if_neg (by simp [hblank]), hloads] at hp
        refine ⟨?_, fun hh => dispatch_obj_responds hp hh,
                fun hh => dispatch_unhashable_method hp hh⟩
        obtain ⟨fs, hfs, -⟩ := dispatch_responds_result_or_error hp
        exact ⟨fs, hfs⟩

/-- C5 instantiated on a two-request stdin: a `think` call followed by a
`get_manifest` call, answered in order with matching ids. -/
theorem responses_fifo_with_id_echo_witness :
    ∃ outss : List (List Json),
      [Json.obj [("id", Json.num 1), ("result", Json.obj [("ok", Json.bool true)])],
       Json.obj [("id", Json.num 2), ("result", Json.obj
         [("id", .str "python.unnamed"),
          ("name", .str "Unnamed Python Script"),
          ("description", .str "No description provided."),
          ("version", .str "0.0.0"),
          ("capabilities", .arr [.str "Reasoning"])])]] = outss.flatten ∧
      List.Forall₂ ObjectLineResponds [lineThink, lineManifest] outss :=
  responses_fifo_with_id_echo call_method_with_timeout_signal 8 sampleModule
    [lineThink, lineManifest] _ rfl

/-! ## Claim C6 -/

/-- C6: once the loop runs, every handled (non-blank) line yields
exactly one Response — an object carrying a `result` or an `error`
field, never a crash; malformed JSON becomes `{"error": str(e)}`; a
failed invocation (method exception or timeout) becomes
`{id, error: message}`. -/
theorem per_line_errors_become_responses (strat : Strategy) (dt : Nat) (m : UserModule)
    (l : PyLine) (lo : LineOutcome)
    (hblank : strippedIsEmpty l.text = false)
    (h : process_line strat dt m l = some lo) :
    (∃ fs, lo.out = [Json.obj fs] ∧
      ((jsonGet fs "result").isSome ∨ (jsonGet fs "error").isSome)) ∧
    (∀ e, l.loads = .error e → lo.out = [Json.obj [("error", Json.str e)]]) ∧
    (∀ fields name attr r,
      l.loads = .ok (.obj fields) →
      (jsonGet fields "method").getD Json.null = Json.str name →
      ¬name = "get_manifest" →
      (allowed_methods m).contains name = true →
      m.attrs.lookup name = some attr →
      strat attr.call ((jsonGet fields "params").getD Json.null) dt = some r →
      r.success = false →
      lo.out = [Json.obj [("id", (jsonGet fields "id").getD Json.null),
                          ("error", Json.str (r.error.getD ""))]]) := by
  rw [process_line, if_neg (by simp [hblank])] at h
  refine ⟨?_, ?_, ?_⟩
  · cases hl : l.loads with
    | error e =>
      rw [hl] at h
      cases h
      exact ⟨_, rfl, Or.inr (by simp [jsonGet])⟩
    | ok v =>
      rw [hl] at h
      exact dispatch_responds_result_or_error h
  · intro e he
    rw [he] at h
    cases h
    rfl
  · intro fields name attr r hl hmeth hne hcont hlook hs hfail
    rw [hl] at h
    have hmem : name ∈ allowed_methods m := by simpa [List.contains] using hcont
    simp [dispatch_request, hmeth, hne, hmem, hlook, hs, hfail] at h
    rw [← h]

/-- C6 instantiated on a malformed-JSON line. -/
theorem per_line_errors_become_responses_witness :
    (∃ fs, [Json.obj [("error",
        Json.str "Expecting value: line 1 column 1 (char 0)")]] = [Json.obj fs] ∧
      ((jsonGet fs "result").isSome ∨ (jsonGet fs "error").isSome)) ∧
    (∀ e, lineBad.loads = .error e →
      [Json.obj [("error", Json.str "Expecting value: line 1 column 1 (char 0)")]]
        = [Json.obj [("error", Json.str e)]]) ∧
    (∀ fields name attr r,
      lineBad.loads = .ok (.obj fields) →
      (jsonGet fields "method").getD Json.null = Json.str name →
      ¬name = "get_manifest" →
      (allowed_methods sampleModule).contains name = true →
      sampleModule.attrs.lookup name = some attr →
      call_method_with_timeout_signal attr.call
        ((jsonGet fields "params").getD Json.null) 8 = some r →
      r.success = false →
      [Json.obj [("error", Json.str "Expecting value: line 1 column 1 (char 0)")]]
        = [Json.obj [("id", (jsonGet fields "id").getD Json.null),
                     ("error", Json.str (r.error.getD ""))]]) := by
  have h := per_line_errors_become_responses call_method_with_timeout_signal 8 sampleModule
    lineBad ⟨[Json.obj [("error", Json.str "Expecting value: line 1 column 1 (char 0)")]],
             none⟩ rfl rfl
  exact h

/-! ## Claim C9 -/

/-- C9: a line that is valid JSON but not a JSON object makes
`request.get` raise, which the dispatch boundary converts into a
Response containing only an `error` field and no `id`; the loop then
continues with the next line. -/
theorem non_object_line_error_without_id (strat : Strategy) (dt : Nat) (m : UserModule)
    (l : PyLine) (v : Json)
    (hblank : strippedIsEmpty l.text = false)
    (hloads : l.loads = .ok v)
    (hobj : v.isObj = false) :
    process_line strat dt m l =
      some ⟨[Json.obj [("error", Json.str (noGetAttrMsg v))]], none⟩ ∧
    (∀ rest outs, run_loop strat dt m rest = some outs →
      run_loop strat dt m (l :: rest) =
        some (Json.obj [("error", Json.str (noGetAttrMsg v))] :: outs)) := by
  have hp : process_line strat dt m l =
      some ⟨[Json.obj [("error", Json.str (noGetAttrMsg v))]], none⟩ := by
    rw [process_line, if_neg (by simp [hblank]), hloads]
    cases v with
    | obj fs => simp [Json.isObj] at hobj
    | null => rfl
    | bool b => rfl
    | num n => rfl
    | str s => rfl
    | arr elems => rfl
  refine ⟨hp, fun rest outs hrest => ?_⟩
  simp [run_loop, hp, hrest]

/-- C9 instantiated on the line `[1, 2]`. -/
theorem non_object_line_error_without_id_witness :
    process_line call_method_with_timeout_signal 8 sampleModule lineArr =
      some ⟨[Json.obj [("error",
        Json.str "\x27list\x27 object has no attribute \x27get\x27")]], none⟩ ∧
    run_loop call_method_with_timeout_signal 8 sampleModule [lineArr] =
      some [Json.obj [("error",
        Json.str "\x27list\x27 object has no attribute \x27get\x27")]] :=
  ⟨(non_object_line_error_without_id call_method_with_timeout_signal 8 sampleModule
      lineArr (.arr [.num 1, .num 2]) rfl rfl rfl).1,
   (non_object_line_error_without_id call_method_with_timeout_signal 8 sampleModule
      lineArr (.arr [.num 1, .num 2]) rfl rfl rfl).2 [] [] rfl⟩

/-! ## Claim C10 -/

/-- C10: a line that is empty or consists only of whitespace is skipped
before parsing: nothing is written to the protocol stream for it, and
the loop proceeds to the next line unchanged. -/
theorem blank_line_no_output (strat : Strategy) (dt : Nat) (m : UserModule)
    (l : PyLine) (h : ∀ c ∈ l.text.data, pyIsSpace c = true) :
    process_line strat dt m l = some ⟨[], none⟩ ∧
    (∀ rest, run_loop strat dt m (l :: rest) = run_loop strat dt m rest) := by
  have hb : strippedIsEmpty l.text = true := by
    simpa [strippedIsEmpty, List.all_eq_true] using h
  have hp : process_line strat dt m l = some ⟨[], none⟩ := by
    simp [process_line, hb]
  refine ⟨hp, fun rest => ?_⟩
  cases hr : run_loop strat dt m rest <;> simp [run_loop, hp, hr]

/-- C10 instantiated on a three-space line followed by a `think`
request. -/
theorem blank_line_no_output_witness :
    process_line call_method_with_timeout_signal 8 sampleModule lineBlank =
      some ⟨[], none⟩ ∧
    run_loop call_method_with_timeout_signal 8 sampleModule [lineBlank, lineThink] =
      run_loop call_method_with_timeout_signal 8 sampleModule [lineThink] :=
  ⟨(blank_line_no_output call_method_with_timeout_signal 8 sampleModule lineBlank
      (by decide)).1,
   (blank_line_no_output call_method_with_timeout_signal 8 sampleModule lineBlank
      (by decide)).2 [lineThink]⟩

/-! ## Claim C8: invariant machinery for the writer lock -/

/-- Inversion: a thread about to `acquire` is idle. -/
theorem wphase_of_acquire_head {s : String} {rest : List WInstr} {c : List Char} {b : Bool}
    (hp : WPhase s (WInstr.acquire :: rest) c b) :
    c = [] ∧ b = false ∧ rest = s.data.map WInstr.wr ++ [WInstr.flush, WInstr.release] := by
  generalize hq : WInstr.acquire :: rest = q at hp
  cases hp with
  | idle =>
    simp only [emitProg, List.cons.injEq, true_and] at hq
    exact ⟨rfl, rfl, hq⟩
  | writing done rest₀ hsd => exact absurd hq (by cases rest₀ <;> simp)
  | flushed => exact absurd hq (by simp)
  | finished => exact absurd hq (by simp)

/-- Inversion: a thread about to write a character holds the lock and is
mid-line, with that character the next one of its text. -/
theorem wphase_of_wr_head {s : String} {ch : Char} {rest : List WInstr} {c : List Char}
    {b : Bool} (hp : WPhase s (WInstr.wr ch :: rest) c b) :
    b = true ∧ ∃ rest₁ : List Char, s.data = c ++ ch :: rest₁ ∧
      rest = rest₁.map WInstr.wr ++ [WInstr.flush, WInstr.release] := by
  generalize hq : WInstr.wr ch :: rest = q at hp
  cases hp with
  | idle => exact absurd hq (by simp [emitProg])
  | writing done rest₀ hsd =>
    cases rest₀ with
    | nil => exact absurd hq (by simp)
    | cons a as =>
      simp only [List.map_cons, List.cons_append, List.cons.injEq, WInstr.wr.injEq] at hq
      obtain ⟨rfl, hrest⟩ := hq
      exact ⟨rfl, as, hsd, hrest⟩
  | flushed => exact absurd hq (by simp)
  | finished => exact absurd hq (by simp)

/-- Inversion: a thread about to `flush` holds the lock and has written
its whole line. -/
theorem wphase_of_flush_head {s : String} {rest : List WInstr} {c : List Char} {b : Bool}
    (hp : WPhase s (WInstr.flush :: rest) c b) :
    b = true ∧ c = s.data ∧ rest = [WInstr.release] := by
  generalize hq : WInstr.flush :: rest = q at hp
  cases hp with
  | idle => exact absurd hq (by simp [emitProg])
  | writing done rest₀ hsd =>
    cases rest₀ with
    | nil =>
      simp only [List.map_nil, List.nil_append, List.cons.injEq, true_and] at hq
      exact ⟨rfl, by simpa using hsd.symm, hq⟩
    | cons a as => exact absurd hq (by simp)
  | flushed => exact absurd hq (by simp)
  | finished => exact absurd hq (by simp)

/-- Inversion: a thread about to `release` holds the lock and has
written its whole line. -/
theorem wphase_of_release_head {s : String} {rest : List WInstr} {c : List Char} {b : Bool}
    (hp : WPhase s (WInstr.release :: rest) c b) :
    b = true ∧ c = s.data ∧ rest = [] := by
  generalize hq : WInstr.release :: rest = q at hp
  cases hp with
  | idle => exact absurd hq (by simp [emitProg])
  | writing done rest₀ hsd => exact absurd hq (by cases rest₀ <;> simp)
  | flushed =>
    simp only [List.cons.injEq, true_and] at hq
    exact ⟨rfl, rfl, hq⟩
  | finished => exact absurd hq (by simp)

/-- Inversion: a thread with an empty program has finished its line and
does not hold the lock. -/
theorem wphase_of_nil {s : String} {c : List Char} {b : Bool}
    (hp : WPhase s [] c b) : c = s.data ∧ b = false := by
  generalize hq : ([] : List WInstr) = q at hp
  cases hp with
  | idle => exact absurd hq (by simp [emitProg])
  | writing done rest₀ hsd => exact absurd hq (by cases rest₀ <;> simp)
  | flushed => exact absurd hq (by simp)
  | finished => exact ⟨rfl, rfl⟩

/-- A thread not holding the lock has written nothing or everything. -/
theorem wphase_false_contrib {s : String} {p : List WInstr} {c : List Char}
    (hp : WPhase s p c false) : c = [] ∨ c = s.data := by
  cases hp with
  | idle => exact Or.inl rfl
  | finished => exact Or.inr rfl

/-- The two-writer invariant is preserved by every scheduler step. -/
theorem winv_step {s1 s2 : String} {st st' : WriterSys}
    (hstep : WStep st st') (hinv : WInv s1 s2 st) : WInv s1 s2 st' := by
  obtain ⟨c1, b1, c2, b2, hp1, hp2, hnb, hlk, hout⟩ := hinv
  cases hstep with
  | acq1 rest p2 o =>
    obtain ⟨rfl, rfl, hrest⟩ := wphase_of_acquire_head hp1
    have hb2 : b2 = false := by
      cases b2
      · rfl
      · exact absurd hlk (by simp)
    subst hb2
    refine ⟨[], true, c2, false, ?_, hp2, by simp, rfl, hout⟩
    rw [hrest]
    exact WPhase.writing [] s1.data (by simp)
  | wr1 lk ch rest p2 o =>
    obtain ⟨rfl, rest₁, hsd, hrest⟩ := wphase_of_wr_head hp1
    have hb2 : b2 = false := by
      cases b2
      · rfl
      · exact absurd ⟨rfl, rfl⟩ hnb
    subst hb2
    have hc1ne : ¬c1 = s1.data := by
      intro he
      have hlen := congrArg List.length hsd
      rw [he] at hlen
      simp [List.length_append] at hlen
    have hph1 : WPhase s1 rest (c1 ++ [ch]) true := by
      rw [hrest]
      exact WPhase.writing (c1 ++ [ch]) rest₁ (by rw [hsd, List.append_cons])
    refine ⟨c1 ++ [ch], true, c2, false, hph1, hp2, by simp, hlk, ?_⟩
    dsimp only at hout ⊢
    rcases hout with ⟨ho, hcond⟩ | ⟨ho, hcond⟩
    · have hc2 : c2 = [] := by
        by_contra hne
        exact hc1ne (hcond hne)
      subst hc2
      refine Or.inl ⟨?_, by simp⟩
      rw [ho]
      simp [wrBlock]
    · rcases wphase_false_contrib hp2 with hc2 | hc2
      · subst hc2
        refine Or.inl ⟨?_, by simp⟩
        rw [ho]
        simp [wrBlock]
      · refine Or.inr ⟨?_, fun _ => hc2⟩
        rw [ho]
        simp [wrBlock]
  | flush1 lk rest p2 o =>
    obtain ⟨rfl, rfl, hrest⟩ := wphase_of_flush_head hp1
    refine ⟨s1.data, true, c2, b2, ?_, hp2, hnb, hlk, hout⟩
    rw [hrest]
    exact WPhase.flushed
  | rel1 lk rest p2 o =>
    obtain ⟨rfl, rfl, hrest⟩ := wphase_of_release_head hp1
    have hb2 : b2 = false := by
      cases b2
      · rfl
      · exact absurd ⟨rfl, rfl⟩ hnb
    subst hb2
    refine ⟨s1.data, false, c2, false, ?_, hp2, by simp, rfl, hout⟩
    rw [hrest]
    exact WPhase.finished
  | acq2 p1 rest o =>
    obtain ⟨rfl, rfl, hrest⟩ := wphase_of_acquire_head hp2
    have hb1 : b1 = false := by
      cases b1
      · rfl
      · exact absurd hlk (by simp)
    subst hb1
    refine ⟨c1, false, [], true, hp1, ?_, by simp, rfl, hout⟩
    rw [hrest]
    exact WPhase.writing [] s2.data (by simp)
  | wr2 lk p1 ch rest o =>
    obtain ⟨rfl, rest₁, hsd, hrest⟩ := wphase_of_wr_head hp2
    have hb1 : b1 = false := by
      cases b1
      · rfl
      · exact absurd ⟨rfl, rfl⟩ hnb
    subst hb1
    have hc2ne : ¬c2 = s2.data := by
      intro he
      have hlen := congrArg List.length hsd
      rw [he] at hlen
      simp [List.length_append] at hlen
    have hph2 : WPhase s2 rest (c2 ++ [ch]) true := by
      rw [hrest]
      exact WPhase.writing (c2 ++ [ch]) rest₁ (by rw [hsd, List.append_cons])
    refine ⟨c1, false, c2 ++ [ch], true, hp1, hph2, by simp, hlk, ?_⟩
    dsimp only at hout ⊢
    rcases hout with ⟨ho, hcond⟩ | ⟨ho, hcond⟩
    · rcases wphase_false_contrib hp1 with hc1 | hc1
      · subst hc1
        refine Or.inr ⟨?_, by simp⟩
        rw [ho]
        simp [wrBlock]
      · refine Or.inl ⟨?_, fun _ => hc1⟩
        rw [ho]
        simp [wrBlock]
    · have hc1 : c1 = [] := by
        by_contra hne
        exact hc2ne (hcond hne)
      subst hc1
      refine Or.inr ⟨?_, by simp⟩
      rw [ho]
      simp [wrBlock]
  | flush2 lk p1 rest o =>
    obtain ⟨rfl, rfl, hrest⟩ := wphase_of_flush_head hp2
    refine ⟨c1, b1, s2.data, true, hp1, ?_, hnb, hlk, hout⟩
    rw [hrest]
    exact WPhase.flushed
  | rel2 lk p1 rest o =>
    obtain ⟨rfl, rfl, hrest⟩ := wphase_of_release_head hp2
    have hb1 : b1 = false := by
      cases b1
      · rfl
      · exact absurd ⟨rfl, rfl⟩ hnb
    subst hb1
    refine ⟨c1, false, s2.data, false, hp1, ?_, by simp, rfl, hout⟩
    rw [hrest]
    exact WPhase.finished

/-- The invariant holds in every state reachable from two writers about
to emit one line each. -/
theorem winv_reach {s1 s2 : String} {st : WriterSys}
    (h : WriterReach s1 s2 st) : WInv s1 s2 st := by
  induction h with
  | refl =>
    exact ⟨[], false, [], false, WPhase.idle, WPhase.idle, by simp, rfl,
           Or.inl ⟨rfl, fun hne => absurd rfl hne⟩⟩
  | tail hsteps hstep ih => exact winv_step hstep ih

/-- C8: in every reachable state of two concurrent writers (an Event
emitter and a Response writer, or two emitters), a thread about to write
a byte to the protocol stream holds the writer lock, and when both lines
have been emitted the stream holds the two serialized lines contiguously
in one order or the other — never interleaved or partial. -/
theorem protocol_writes_lock_protected (s1 s2 : String) (st : WriterSys)
    (h : WriterReach s1 s2 st) :
    (∀ ch rest, st.prog1 = WInstr.wr ch :: rest → st.lock = some true) ∧
    (∀ ch rest, st.prog2 = WInstr.wr ch :: rest → st.lock = some false) ∧
    (st.prog1 = [] → st.prog2 = [] →
      st.out = wrBlock true s1.data ++ wrBlock false s2.data ∨
      st.out = wrBlock false s2.data ++ wrBlock true s1.data) := by
  obtain ⟨c1, b1, c2, b2, hp1, hp2, hnb, hlk, hout⟩ := winv_reach h
  refine ⟨?_, ?_, ?_⟩
  · intro ch rest hw
    rw [hw] at hp1
    obtain ⟨rfl, -⟩ := wphase_of_wr_head hp1
    rw [hlk]
    simp
  · intro ch rest hw
    rw [hw] at hp2
    obtain ⟨rfl, -⟩ := wphase_of_wr_head hp2
    have hb1 : b1 = false := by
      cases b1
      · rfl
      · exact absurd ⟨rfl, rfl⟩ hnb
    subst hb1
    rw [hlk]
    simp
  · intro hpe1 hpe2
    rw [hpe1] at hp1
    rw [hpe2] at hp2
    obtain ⟨rfl, -⟩ := wphase_of_nil hp1
    obtain ⟨rfl, -⟩ := wphase_of_nil hp2
    rcases hout with ⟨ho, -⟩ | ⟨ho, -⟩
    · exact Or.inl ho
    · exact Or.inr ho

/-- C8 instantiated: an explicit interleaved schedule of two writers
emitting the one-character lines `a` and `b` ends with the two lines
contiguous on the stream. -/
theorem protocol_writes_lock_protected_witness :
    ([(true, 'a'), (false, 'b')] : List (Bool × Char)) =
      wrBlock true "a".data ++ wrBlock false "b".data ∨
    ([(true, 'a'), (false, 'b')] : List (Bool × Char)) =
      wrBlock false "b".data ++ wrBlock true "a".data := by
  have hreach : WriterReach "a" "b" ⟨none, [], [], [(true, 'a'), (false, 'b')]⟩ := by
    unfold WriterReach
    refine Relation.ReflTransGen.head (WStep.acq1 _ _ _) ?_
    refine Relation.ReflTransGen.head (WStep.wr1 _ _ _ _ _) ?_
    refine Relation.ReflTransGen.head (WStep.flush1 _ _ _ _) ?_
    refine Relation.ReflTransGen.head (WStep.rel1 _ _ _ _) ?_
    refine Relation.ReflTransGen.head (WStep.acq2 _ _ _) ?_
    refine Relation.ReflTransGen.head (WStep.wr2 _ _ _ _ _) ?_
    refine Relation.ReflTransGen.head (WStep.flush2 _ _ _ _) ?_
    refine Relation.ReflTransGen.head (WStep.rel2 _ _ _ _) ?_
    exact Relation.ReflTransGen.refl
  exact (protocol_writes_lock_protected "a" "b" _ hreach).2.2 rfl rfl

end ExivBridge
